import Mathlib

/-!
Verification development for the Heuristic repository (DrXing/Heuristic).

The repository has three Python source files:
  * `src/Extraction.py`   — per-page PDF text extraction, a retry/backoff
    guarded call to a generative-AI endpoint, and accumulation of the
    extracted heuristic rules into a JSON output file;
  * `src/QueryarXiv.py`   — keyword search against the arXiv Atom feed API
    and parsing of the feed entries into paper records;
  * `src/template.py`     — a dashboard shell plus `download_pdfs`, which
    fetches one PDF per paper record.

This file gives a shallow embedding of those functions.  Effectful library
calls (HTTP requests, XML parsing, `json.loads`) are modelled by explicit
oracle parameters describing the environment's responses; the control flow
around them is translated statement by statement from the Python source.
-/

set_option autoImplicit false

namespace Heuristic

/-! ## Models of Python string library calls used by the source -/

/-- Model of Python `str.strip()`: removes leading and trailing
whitespace.  (Lean's own `String.trim` is defined by well-founded
recursion on byte positions and does not reduce in the kernel, so the
same function is written here structurally over the character list.) -/
def pyStrip (s : String) : String :=
  String.mk (((s.data.dropWhile Char.isWhitespace).reverse.dropWhile
    Char.isWhitespace).reverse)

/-- Model of Python `str.split(c)` for a one-character separator: splits
at every occurrence of `c`, keeping empty segments, and returns at least
one (possibly empty) segment. -/
def pySplit (c : Char) (s : String) : List String :=
  (s.data.foldr
    (fun ch acc =>
      match acc with
      | [] => [[ch]]
      | cur :: rest => if ch = c then [] :: (cur :: rest) else (ch :: cur) :: rest)
    [[]]).map String.mk

/-! ## Model of `src/Extraction.py` -/

/-- Outcome of one POST to the Gemini endpoint, as observed by the `try`
block of `call_gemini_for_extraction` (Extraction.py lines 113-129):
either a `requests.exceptions.RequestException` is raised (this includes
the `raise_for_status` path for 4xx/5xx responses), or a response is
obtained and the chain
`result.get('candidates',[{}])[0].get('content',{}).get('parts',[{}])[0].get('text')`
yields `t : Option String` (`none` models Python `None`). -/
inductive GeminiOutcome where
  | requestException
  | responseText (t : Option String)
deriving DecidableEq

/-- Result of the `if json_text:` test in Extraction.py line 123: the body
returns `json_text` exactly when it is a non-`None`, non-empty string
(Python truthiness); otherwise the attempt counts as failed. -/
def attemptText : GeminiOutcome → Option String
  | .requestException => none
  | .responseText none => none
  | .responseText (some s) => if s.isEmpty then none else some s

/-- Observable result of a run of `call_gemini_for_extraction`:
the returned value, the list of `time.sleep` delays performed (in seconds,
in order), and how many attempts were made. -/
structure CallResult where
  result : Option String
  delays : List Nat
  attemptsMade : Nat
deriving DecidableEq

/-- Loop body of `call_gemini_for_extraction` (Extraction.py lines
112-138): iterates over the remaining attempt indices (Python
`for attempt in range(max_retries)`).  On a successful attempt the text is
returned at once; on a failed attempt, if `attempt < max_retries - 1`
the loop sleeps `2 ** attempt` seconds and continues; when the attempts
are exhausted the function returns `None`. -/
def callGeminiLoop (outcomes : Nat → GeminiOutcome) (max_retries : Nat) :
    List Nat → List Nat → CallResult
  | [], delays => ⟨none, delays, max_retries⟩
  | attempt :: rest, delays =>
    match attemptText (outcomes attempt) with
    | some s => ⟨some s, delays, attempt + 1⟩
    | none =>
      callGeminiLoop outcomes max_retries rest
        (if attempt < max_retries - 1 then delays ++ [2 ^ attempt] else delays)

/-- Model of `call_gemini_for_extraction` (Extraction.py lines 78-138).
The request payload (prompt, schema, headers) does not influence the
control flow and is absorbed into the `outcomes` oracle, which gives the
outcome of the POST made on each attempt index. -/
def call_gemini_for_extraction (outcomes : Nat → GeminiOutcome)
    (max_retries : Nat := 5) : CallResult :=
  callGeminiLoop outcomes max_retries (List.range max_retries) []

/-- One element of the list returned by `extract_text_from_pdf`
(Extraction.py lines 67-70): a 1-indexed page number and the page's raw
text. -/
structure PageText where
  page_num : Nat
  text : String
deriving DecidableEq

/-- Loop of `extract_text_from_pdf` (Extraction.py lines 61-70): `idx` is
the 0-based `page_num` of the Python loop; a page is kept exactly when
`len(text.strip()) > 100`, and is tagged with `page_num + 1`. -/
def extractGo : List String → Nat → List PageText
  | [], _ => []
  | t :: rest, idx =>
    if 100 < (pyStrip t).length then ⟨idx + 1, t⟩ :: extractGo rest (idx + 1)
    else extractGo rest (idx + 1)

/-- Model of `extract_text_from_pdf` (Extraction.py lines 43-74).  The
document is modelled as the list of its pages' `get_text()` results, in
page order.  (A PDF that fails to open is modelled by `[]`, matching the
early `return []` of lines 53-57.) -/
def extract_text_from_pdf (pages : List String) : List PageText :=
  extractGo pages 0

/-- One heuristic rule, as described by `HEURISTIC_SCHEMA1`
(Extraction.py lines 14-39): the schema the endpoint is required to
follow makes the decoded response a JSON array of objects with exactly
these four required fields. -/
structure HeuristicRule where
  rule_id : String
  rule_name : String
  description : String
  source_page : Int
deriving DecidableEq

/-- Observable events of a run of `extractPDF`: one API call per
processed page (the `call_gemini_for_extraction` call of line 165,
tagged with the page's 1-indexed number), and a write of the output file
with the given accumulated content (lines 188-190, `open(..., 'w')`
followed by `json.dump`). -/
inductive Event where
  | apiCall (page_num : Nat)
  | fileWrite (content : List HeuristicRule)
deriving DecidableEq

/-- Test selecting the file-write events of a trace. -/
def Event.isWrite : Event → Bool
  | .fileWrite _ => true
  | .apiCall _ => false

/-- File-system semantics of the write in `extractPDF`: the file is
opened with mode `w` (truncate) and fully rewritten, so a write event
replaces any previous content; `none` models an absent file. -/
def applyEvent : Option (List HeuristicRule) → Event → Option (List HeuristicRule)
  | _, .fileWrite c => some c
  | f, .apiCall _ => f

/-- Content of `extracted_heuristics.json` after replaying a trace over a
previous file state. -/
def finalFile (prev : Option (List HeuristicRule)) (trace : List Event) :
    Option (List HeuristicRule) :=
  trace.foldl applyEvent prev

/-- Page loop of `extractPDF` (Extraction.py lines 161-180).  For each
page: `call_gemini_for_extraction` is invoked (its per-attempt outcomes
given by the oracle `outcomes`, keyed by page number); if it returns a
string, `json.loads` (modelled by the oracle `parseJson`, `none` =
`JSONDecodeError`) is applied, and a successfully decoded non-empty list
extends the accumulator (`if heuristics_list:` — extending with an empty
list is skipped, which leaves the accumulator unchanged either way).
Returns the events of the loop together with the final accumulator
`all_extracted_heuristics`. -/
def processPages (outcomes : Nat → Nat → GeminiOutcome)
    (parseJson : String → Option (List HeuristicRule)) :
    List PageText → List Event × List HeuristicRule
  | [] => ([], [])
  | pd :: rest =>
    let contrib : List HeuristicRule :=
      match (call_gemini_for_extraction (outcomes pd.page_num)).result with
      | none => []
      | some s =>
        match parseJson s with
        | none => []
        | some l => l
    let r := processPages outcomes parseJson rest
    (Event.apiCall pd.page_num :: r.1, (if contrib.isEmpty then [] else contrib) ++ r.2)

/-- Rules contributed by one page in `extractPDF` (Extraction.py lines
165-177): empty when the extraction call returned `None` or the returned
text failed to decode as JSON, otherwise the decoded list. -/
def pageContribution (outcomes : Nat → Nat → GeminiOutcome)
    (parseJson : String → Option (List HeuristicRule)) (pd : PageText) :
    List HeuristicRule :=
  match (call_gemini_for_extraction (outcomes pd.page_num)).result with
  | none => []
  | some s =>
    match parseJson s with
    | none => []
    | some l => l

/-- The hard-coded Gemini API key of Extraction.py line 8.  The literal
value (a non-empty string) is redacted here; `extractPDF` only tests its
truthiness (`if not API_KEY:`). -/
def API_KEY : String := "AIzaSy-REDACTED"

/-- Model of `extractPDF` (Extraction.py lines 142-197), as the trace of
its observable events.  It returns early — writing nothing — when the
API key is empty (lines 146-148) or when `extract_text_from_pdf` yields
no pages (lines 151-154); otherwise it processes each page and writes
the accumulated list to `extracted_heuristics.json` exactly once at the
end (lines 188-190). -/
def extractPDF (pages : List String) (outcomes : Nat → Nat → GeminiOutcome)
    (parseJson : String → Option (List HeuristicRule)) : List Event :=
  if API_KEY.isEmpty then []
  else
    let all_page_data := extract_text_from_pdf pages
    if all_page_data.isEmpty then []
    else
      let r := processPages outcomes parseJson all_page_data
      r.1 ++ [Event.fileWrite r.2]

/-! ## Model of `src/QueryarXiv.py` -/

/-- An XML element as consumed by `search_arxiv`: only its `.text`
attribute is read.  `text = none` models an element whose Python `.text`
is `None`. -/
structure XmlElem where
  text : Option String
deriving DecidableEq

/-- An `atom:author` element: `name` is the result of
`author_elem.find('atom:name', ...)` — `none` when the child element is
absent. -/
structure AuthorElem where
  name : Option XmlElem
deriving DecidableEq

/-- An `arxiv:primary_category` element: `term` is
`attrib.get('term')` — `none` when the attribute is absent. -/
structure PrimaryCategoryElem where
  term : Option String
deriving DecidableEq

/-- One `atom:entry` of the feed, holding exactly the parts
`search_arxiv` reads (QueryarXiv.py lines 60-73).  Each `Option` field
is the result of the corresponding `entry.find(...)`, with `none` for an
absent element. -/
structure AtomEntry where
  title : Option XmlElem
  summary : Option XmlElem
  authors : List AuthorElem
  idElem : Option XmlElem
  primaryCategory : Option PrimaryCategoryElem
deriving DecidableEq

/-- The `paper_data` dictionary built for each entry (QueryarXiv.py
lines 75-81).  `arxiv_id` and `primary_category` are `Option String`
because the Python values can be `None` (a present `atom:id` element
with `text = None`, or a `primary_category` element without a `term`
attribute); `none` models Python `None`, and the absent-element default
is the string `N/A`. -/
structure Paper where
  title : String
  authors : List String
  summary : String
  arxiv_id : Option String
  primary_category : Option String
deriving DecidableEq

/-- The expression
`entry.find(tag, ns).text.strip() if entry.find(tag, ns) is not None else "N/A"`
used for `title` and `summary` (QueryarXiv.py lines 61-62).  When the
element is present but its `.text` is `None`, Python raises
`AttributeError` (`None` has no `strip`), which no handler in
`search_arxiv` catches; this is the `error` case. -/
def textStripped : Option XmlElem → Except Unit String
  | none => .ok "N/A"
  | some el =>
    match el.text with
    | some t => .ok (pyStrip t)
    | none => .error ()

/-- The author loop (QueryarXiv.py lines 65-69): for each
`atom:author` element, `author_elem.find('atom:name', ...).text` is read
— raising `AttributeError` when the `atom:name` child is absent — and
the name is appended only when it is truthy (non-`None` and
non-empty). -/
def extractAuthors : List AuthorElem → Except Unit (List String)
  | [] => .ok []
  | a :: rest =>
    match a.name with
    | none => .error ()
    | some el =>
      let keep : List String :=
        match el.text with
        | none => []
        | some s => if s.isEmpty then [] else [s]
      match extractAuthors rest with
      | .error u => .error u
      | .ok names => .ok (keep ++ names)

/-- Processing of one feed entry into a `paper_data` record
(QueryarXiv.py lines 60-81).  `arxiv_id` is
`entry.find('atom:id', ...).text` when the element is present (line 72,
no `strip`, so its `None` text propagates), else the string `N/A`;
`primary_category` is `attrib.get('term')` when the element is present
(line 73), else `N/A`. -/
def processEntry (e : AtomEntry) : Except Unit Paper :=
  match textStripped e.title with
  | .error u => .error u
  | .ok title =>
    match textStripped e.summary with
    | .error u => .error u
    | .ok summary =>
      match extractAuthors e.authors with
      | .error u => .error u
      | .ok authors =>
        .ok ⟨title, authors, summary,
          (match e.idElem with
           | none => some "N/A"
           | some el => el.text),
          (match e.primaryCategory with
           | none => some "N/A"
           | some el => el.term)⟩

/-- The entry loop of QueryarXiv.py lines 60-82, building the `papers`
list in document order; an uncaught `AttributeError` in any entry aborts
the whole function. -/
def entriesToPapers : List AtomEntry → Except Unit (List Paper)
  | [] => .ok []
  | e :: rest =>
    match processEntry e with
    | .error u => .error u
    | .ok p =>
      match entriesToPapers rest with
      | .error u => .error u
      | .ok ps => .ok (p :: ps)

/-- Outcome of `ET.fromstring(response.content)` (QueryarXiv.py line
51): either an `ET.ParseError`, or a parsed feed whose `atom:entry`
elements are given in document order. -/
inductive XmlParseResult where
  | parseError
  | feed (entries : List AtomEntry)

/-- Outcome of the `requests.get` plus `raise_for_status` of
QueryarXiv.py lines 41-42: a `RequestException` (connection/timeout or a
4xx/5xx status), or a response body, represented by its parse
outcome. -/
inductive FetchResult where
  | httpError
  | response (xml : XmlParseResult)

/-- Model of `search_arxiv` (QueryarXiv.py lines 9-88).  The network is
an oracle `fetch`, consulted only if a request is made; the second
component of the result records whether a network call occurred.  The
query-string construction of lines 28-35 only shapes the request and is
absorbed into the oracle.  An empty keyword list (line 21), a request
exception (line 44), or a parse error (line 86) each yield `.ok []`;
an `AttributeError` while processing an entry propagates (`.error`). -/
def search_arxiv (keywords : List String) (fetch : Unit → FetchResult) :
    Except Unit (List Paper) × Bool :=
  if keywords.isEmpty then (.ok [], false)
  else
    match fetch () with
    | .httpError => (.ok [], true)
    | .response .parseError => (.ok [], true)
    | .response (.feed entries) => (entriesToPapers entries, true)

/-- A feed entry on which processing cannot raise: `title` and `summary`
elements, when present, carry text, and every `atom:author` element has
an `atom:name` child. -/
def entryWellFormed (e : AtomEntry) : Bool :=
  (match e.title with
   | some el => el.text.isSome
   | none => true) &&
  (match e.summary with
   | some el => el.text.isSome
   | none => true) &&
  e.authors.all (fun a => a.name.isSome)

/-- The author-name texts of an entry, in document order (including
empty ones; a name element whose text is `None` contributes nothing). -/
def entryAuthorTexts (e : AtomEntry) : List String :=
  e.authors.filterMap (fun a => a.name.bind XmlElem.text)

/-! ## Model of `download_pdfs` from `src/template.py` -/

/-- Outcome of the bare `requests.get(pdf_url)` of template.py line 74:
a raised transport exception (there is no `try` around the call), or a
response with a status code and a body. -/
inductive HttpGetResult where
  | exn
  | resp (status : Nat) (body : String)

/-- Observable events of `download_pdfs` (template.py lines 63-80): the
GET for a paper, the byte write into `downloaded_pdfs/`, and the
`st.success` / `st.error` report for a paper. -/
inductive DlEvent where
  | get (url : String)
  | write (path : String) (body : String)
  | success (msg : String)
  | errorMsg (msg : String)
deriving DecidableEq

/-- Test selecting the GET events of a download trace. -/
def DlEvent.isGet : DlEvent → Bool
  | .get _ => true
  | _ => false

/-- The filename stem of template.py line 72:
`paper.get("arxiv_id", "").split('/')[-1]` for a string id. -/
def stemOf (idStr : String) : String :=
  (pySplit '/' idStr).getLastD ""

/-- The URL of template.py line 73. -/
def pdfUrl (stem : String) : String :=
  "http://arxiv.org/pdf/" ++ stem ++ ".pdf"

/-- Model of `download_pdfs` (template.py lines 63-80), as its event
trace plus a flag telling whether the loop ran to completion.  The
`papers` are the dictionaries produced by `search_arxiv`, so the
`arxiv_id` key is always present; a Python `None` value there makes
`.split('/')` raise (`false`, trace cut short), and a transport
exception from `requests.get` is uncaught and likewise aborts the loop.
A non-200 status only reports an error for that paper and continues. -/
def download_pdfs : List Paper → (String → HttpGetResult) →
    List DlEvent × Bool
  | [], _ => ([], true)
  | p :: rest, http =>
    match p.arxiv_id with
    | none => ([], false)
    | some idStr =>
      match http (pdfUrl (stemOf idStr)) with
      | .exn => ([DlEvent.get (pdfUrl (stemOf idStr))], false)
      | .resp status body =>
        ((if status = 200 then
            [DlEvent.get (pdfUrl (stemOf idStr)),
             DlEvent.write ("downloaded_pdfs/" ++ stemOf idStr ++ ".pdf") body,
             DlEvent.success (stemOf idStr ++ ".pdf")]
          else
            [DlEvent.get (pdfUrl (stemOf idStr)),
             DlEvent.errorMsg (stemOf idStr ++ ".pdf")]) ++
          (download_pdfs rest http).1,
         (download_pdfs rest http).2)

end Heuristic

namespace Heuristic

/-! Helper lemmas for the retry loop. -/

theorem attemptText_isEmpty_false {o : GeminiOutcome} {s : String}
    (h : attemptText o = some s) : s.isEmpty = false := by
  cases o with
  | requestException => simp [attemptText] at h
  | responseText t =>
    cases t with
    | none => simp [attemptText] at h
    | some u =>
      by_cases hu : u.isEmpty
      · simp [attemptText, hu] at h
      · simp [attemptText, hu] at h
        subst h
        simpa using hu

theorem callGeminiLoop_result_isEmpty_false
    (outcomes : Nat → GeminiOutcome) (m : Nat) :
    ∀ attempts delays s,
      (callGeminiLoop outcomes m attempts delays).result = some s →
      s.isEmpty = false := by
  intro attempts
  induction attempts with
  | nil => intro delays s h; simp [callGeminiLoop] at h
  | cons a rest ih =>
    intro delays s h
    rw [callGeminiLoop] at h
    cases ha : attemptText (outcomes a) with
    | none => rw [ha] at h; exact ih _ s h
    | some t =>
      rw [ha] at h
      simp at h
      subst h
      exact attemptText_isEmpty_false ha

/-! ## Concrete inputs used by witnesses and counterexamples -/

/-- Attempt outcomes that fail (with a transport exception) on attempts
0..3 and succeed on attempt 4. -/
def c1Outcomes : Nat → GeminiOutcome :=
  fun a => if a < 4 then .requestException else .responseText (some "ok")

/-- Attempt outcomes that always fail with a transport exception. -/
def allFailOutcomes : Nat → GeminiOutcome :=
  fun _ => .requestException

/-- Attempt outcomes that always succeed with the text `x`. -/
def c10Outcomes : Nat → GeminiOutcome :=
  fun _ => .responseText (some "x")

/-! ## Claims C1, C2, C10: the retry/backoff loop -/

/-- C1 (counterexample).  With outcomes that fail on each of the first
four attempts and succeed on the 5th, `call_gemini_for_extraction`
returns the successful text, but the backoff delays are 1, 2, 4 and 8
seconds (`2 ** attempt` for attempts 0..3; `2 ** 0 = 1`), totalling 15
seconds — not 0, 2, 4, 8 totalling 14 as the claim states. -/
theorem c1_backoff_counterexample :
    (call_gemini_for_extraction c1Outcomes).result = some "ok" ∧
    (call_gemini_for_extraction c1Outcomes).delays = [1, 2, 4, 8] ∧
    (call_gemini_for_extraction c1Outcomes).delays ≠ [0, 2, 4, 8] ∧
    (call_gemini_for_extraction c1Outcomes).delays.sum = 15 ∧
    (call_gemini_for_extraction c1Outcomes).delays.sum ≠ 14 := by
  decide

/-- C1 (amended).  When `call_gemini_for_extraction` fails on each of
its first four attempts and succeeds on the 5th, the wait before each
retry for attempt `a` is `2 ^ a` seconds, namely 1, 2, 4 and 8 seconds
for attempts 0..3, so the total elapsed wait before the successful
result is returned is 15 seconds. -/
theorem c1_backoff_amended (outcomes : Nat → GeminiOutcome) (s : String)
    (hfail : ∀ a, a < 4 → attemptText (outcomes a) = none)
    (hsucc : attemptText (outcomes 4) = some s) :
    call_gemini_for_extraction outcomes = ⟨some s, [1, 2, 4, 8], 5⟩ := by
  have h0 := hfail 0 (by norm_num)
  have h1 := hfail 1 (by norm_num)
  have h2 := hfail 2 (by norm_num)
  have h3 := hfail 3 (by norm_num)
  have hr : List.range 5 = [0, 1, 2, 3, 4] := rfl
  simp [call_gemini_for_extraction, hr, callGeminiLoop, h0, h1, h2, h3, hsucc]

/-- Witness for `c1_backoff_amended` at the concrete outcomes
`c1Outcomes`. -/
theorem c1_backoff_witness :
    call_gemini_for_extraction c1Outcomes = ⟨some "ok", [1, 2, 4, 8], 5⟩ :=
  c1_backoff_amended c1Outcomes "ok" (by decide) (by decide)

/-- C2.  If every one of the 5 attempts fails (transport/HTTP exception
or a response with no extractable text, i.e. `attemptText` is `none`),
the function returns an absent result (`none`), exactly 5 attempts are
made and no further ones occur, and only 4 backoff delays are performed
— none after the final attempt. -/
theorem c2_all_attempts_fail (outcomes : Nat → GeminiOutcome)
    (hfail : ∀ a, a < 5 → attemptText (outcomes a) = none) :
    call_gemini_for_extraction outcomes = ⟨none, [1, 2, 4, 8], 5⟩ := by
  have h0 := hfail 0 (by norm_num)
  have h1 := hfail 1 (by norm_num)
  have h2 := hfail 2 (by norm_num)
  have h3 := hfail 3 (by norm_num)
  have h4 := hfail 4 (by norm_num)
  have hr : List.range 5 = [0, 1, 2, 3, 4] := rfl
  simp [call_gemini_for_extraction, hr, callGeminiLoop, h0, h1, h2, h3, h4]

/-- Witness for `c2_all_attempts_fail` at outcomes that always raise. -/
theorem c2_all_attempts_fail_witness :
    call_gemini_for_extraction allFailOutcomes = ⟨none, [1, 2, 4, 8], 5⟩ :=
  c2_all_attempts_fail allFailOutcomes (by decide)

/-- C10.  `call_gemini_for_extraction` never returns an empty string:
whenever its result is `some s`, the string `s` is non-empty, because a
response whose extracted text is missing or empty fails the
`if json_text:` test and counts as a failed attempt. -/
theorem c10_no_empty_string (outcomes : Nat → GeminiOutcome) (m : Nat)
    (s : String)
    (h : (call_gemini_for_extraction outcomes m).result = some s) :
    s ≠ "" := by
  intro hs
  subst hs
  have h2 := callGeminiLoop_result_isEmpty_false outcomes m _ _ "" h
  have h3 : ("" : String).isEmpty = true := by decide
  exact absurd (h3.symm.trans h2) (by decide)

/-- Witness for `c10_no_empty_string` at outcomes that succeed at once
with the text `x`. -/
theorem c10_no_empty_string_witness :
    (call_gemini_for_extraction c10Outcomes 5).result = some "x" ∧
    ("x" : String) ≠ "" :=
  ⟨by decide, c10_no_empty_string c10Outcomes 5 "x" (by decide)⟩

/-! ## Claim C3: the page filter of `extract_text_from_pdf` -/

theorem extractGo_mem (l : List String) :
    ∀ idx pn tx, (⟨pn, tx⟩ : PageText) ∈ extractGo l idx ↔
      ∃ j, l[j]? = some tx ∧ pn = idx + j + 1 ∧
        100 < (pyStrip tx).length := by
  induction l with
  | nil =>
    intro idx pn tx
    simp [extractGo]
  | cons t rest ih =>
    intro idx pn tx
    rw [extractGo]
    by_cases ht : 100 < (pyStrip t).length
    · rw [if_pos ht]
      constructor
      · intro hmem
        rcases List.mem_cons.mp hmem with he | he
        · rw [PageText.mk.injEq] at he
          obtain ⟨hpn, htx⟩ := he
          subst htx
          exact ⟨0, by simp, by omega, ht⟩
        · rcases (ih (idx + 1) pn tx).mp he with ⟨j, hj, hp, hl⟩
          exact ⟨j + 1, by simpa using hj, by omega, hl⟩
      · rintro ⟨j, hj, hp, hl⟩
        cases j with
        | zero =>
          simp at hj
          subst hj
          simp at hp
          subst hp
          exact List.mem_cons_self _ _
        | succ j2 =>
          simp at hj
          exact List.mem_cons_of_mem _ ((ih (idx + 1) pn tx).mpr ⟨j2, hj, by omega, hl⟩)
    · rw [if_neg ht]
      rw [ih (idx + 1) pn tx]
      constructor
      · rintro ⟨j, hj, hp, hl⟩
        exact ⟨j + 1, by simpa using hj, by omega, hl⟩
      · rintro ⟨j, hj, hp, hl⟩
        cases j with
        | zero =>
          simp at hj
          subst hj
          exact absurd hl ht
        | succ j2 =>
          simp at hj
          exact ⟨j2, hj, by omega, hl⟩

theorem extractGo_length (l : List String) :
    ∀ idx, (extractGo l idx).length =
      (l.filter (fun t => 100 < (pyStrip t).length)).length := by
  induction l with
  | nil => intro idx; simp [extractGo]
  | cons t rest ih =>
    intro idx
    rw [extractGo]
    by_cases ht : 100 < (pyStrip t).length
    · rw [if_pos ht]
      simp [List.filter, ht, ih (idx + 1)]
    · rw [if_neg ht]
      simp [List.filter, ht, ih (idx + 1)]

/-- C3.  `extract_text_from_pdf` includes exactly those pages whose
stripped text has length greater than 100 characters, each tagged with
its 1-indexed page number (an entry with page number `pn` and text `tx`
is in the result iff page `pn - 1` of the document has text `tx` with
stripped length over 100), and the result has one entry per qualifying
page. -/
theorem c3_page_filter (pages : List String) (pn : Nat) (tx : String) :
    ((⟨pn, tx⟩ : PageText) ∈ extract_text_from_pdf pages ↔
      ∃ j, pages[j]? = some tx ∧ pn = j + 1 ∧
        100 < (pyStrip tx).length) ∧
    (extract_text_from_pdf pages).length =
      (pages.filter (fun t => 100 < (pyStrip t).length)).length := by
  constructor
  · rw [extract_text_from_pdf, extractGo_mem]
    simp
  · exact extractGo_length pages 0

/-! ## Claims C4 and C5: the output of `extractPDF` -/

theorem ifEmpty_append {α : Type} (c r : List α) :
    (if c.isEmpty then [] else c) ++ r = c ++ r := by
  cases c <;> simp

theorem processPages_eq (outcomes : Nat → Nat → GeminiOutcome)
    (parseJson : String → Option (List HeuristicRule)) :
    ∀ l : List PageText,
      processPages outcomes parseJson l =
        (l.map (fun pd => Event.apiCall pd.page_num),
         (l.map (pageContribution outcomes parseJson)).flatten) := by
  intro l
  induction l with
  | nil => simp [processPages]
  | cons pd rest ih =>
    rw [processPages, ih]
    rw [Prod.mk.injEq]
    constructor
    · simp
    · rw [List.map_cons, List.flatten_cons, ifEmpty_append]
      rfl

theorem extractPDF_split (pages : List String)
    (outcomes : Nat → Nat → GeminiOutcome)
    (parseJson : String → Option (List HeuristicRule))
    (h : extract_text_from_pdf pages ≠ []) :
    extractPDF pages outcomes parseJson =
      ((extract_text_from_pdf pages).map fun pd => Event.apiCall pd.page_num) ++
        [Event.fileWrite
          (((extract_text_from_pdf pages).map
            (pageContribution outcomes parseJson)).flatten)] := by
  rw [extractPDF]
  have hk : API_KEY.isEmpty = false := by decide
  rw [hk]
  have h2 : (extract_text_from_pdf pages).isEmpty = false := by
    cases hp : extract_text_from_pdf pages with
    | nil => exact absurd hp h
    | cons a b => rfl
  simp only [Bool.false_eq_true, if_false, h2, processPages_eq]

theorem apiCalls_filter_isWrite (l : List PageText) :
    (l.map fun pd => Event.apiCall pd.page_num).filter Event.isWrite = [] := by
  induction l with
  | nil => rfl
  | cons a b ih => simp [Event.isWrite, ih]

/-- C4.  When `extractPDF` runs to completion (at least one page
qualifies), the content written to the output file is the concatenation,
in page order and without deduplication, of the per-page rule lists, and
its length is the sum of the per-page heuristic counts (a page whose
extraction call returned `None` or whose text failed to decode
contributes the empty list). -/
theorem c4_output_concat (pages : List String)
    (outcomes : Nat → Nat → GeminiOutcome)
    (parseJson : String → Option (List HeuristicRule))
    (h : extract_text_from_pdf pages ≠ []) :
    ∃ content,
      extractPDF pages outcomes parseJson =
        ((extract_text_from_pdf pages).map fun pd => Event.apiCall pd.page_num) ++
          [Event.fileWrite content] ∧
      content =
        ((extract_text_from_pdf pages).map
          (pageContribution outcomes parseJson)).flatten ∧
      content.length =
        ((extract_text_from_pdf pages).map
          fun pd => (pageContribution outcomes parseJson pd).length).sum := by
  refine ⟨_, extractPDF_split pages outcomes parseJson h, rfl, ?_⟩
  rw [List.length_flatten, List.map_map]
  rfl

/-- Concrete page whose stripped text has 101 characters. -/
def longPage : String := String.mk (List.replicate 101 'a')

/-- Attempt outcomes that always succeed at once with a fixed text. -/
def c4Outcomes : Nat → Nat → GeminiOutcome :=
  fun _ _ => .responseText (some "rules-json")

/-- A sample decoded heuristic rule. -/
def sampleRule : HeuristicRule :=
  ⟨"H1", "Visibility of system status", "desc", 1⟩

/-- A `json.loads` oracle that decodes every string to one rule. -/
def c4Parse : String → Option (List HeuristicRule) :=
  fun _ => some [sampleRule]

/-- Witness for `c4_output_concat` on a one-page document. -/
theorem c4_output_concat_witness :
    ∃ content,
      extractPDF [longPage] c4Outcomes c4Parse =
        ((extract_text_from_pdf [longPage]).map
          fun pd => Event.apiCall pd.page_num) ++ [Event.fileWrite content] ∧
      content =
        ((extract_text_from_pdf [longPage]).map
          (pageContribution c4Outcomes c4Parse)).flatten ∧
      content.length =
        ((extract_text_from_pdf [longPage]).map
          fun pd => (pageContribution c4Outcomes c4Parse pd).length).sum :=
  c4_output_concat [longPage] c4Outcomes c4Parse (by decide)

/-- C5 (counterexample).  On an invocation where no page qualifies
(here: a document with no pages, as also happens when the PDF cannot be
opened), `extractPDF` returns early and performs no file write at all,
so the output file is not written exactly once on every invocation. -/
theorem c5_single_write_counterexample :
    extractPDF [] (fun _ _ => GeminiOutcome.requestException) (fun _ => none) = [] ∧
    ((extractPDF [] (fun _ _ => GeminiOutcome.requestException)
        (fun _ => none)).filter Event.isWrite).length ≠ 1 := by
  decide

/-- C5 (amended).  On every invocation of `extractPDF` in which at least
one page qualifies, the output file is written exactly once, as the last
event after all pages are processed, and the write replaces any previous
file content (truncating `w` mode — no append or merge), leaving the
file holding exactly the accumulated array of rules. -/
theorem c5_single_write_amended (pages : List String)
    (outcomes : Nat → Nat → GeminiOutcome)
    (parseJson : String → Option (List HeuristicRule))
    (h : extract_text_from_pdf pages ≠ []) :
    ∃ content,
      (extractPDF pages outcomes parseJson).filter Event.isWrite =
        [Event.fileWrite content] ∧
      (extractPDF pages outcomes parseJson).getLast? =
        some (Event.fileWrite content) ∧
      ∀ prev, finalFile prev (extractPDF pages outcomes parseJson) =
        some content := by
  refine ⟨((extract_text_from_pdf pages).map
    (pageContribution outcomes parseJson)).flatten, ?_, ?_, ?_⟩
  · rw [extractPDF_split pages outcomes parseJson h, List.filter_append,
      apiCalls_filter_isWrite]
    rfl
  · rw [extractPDF_split pages outcomes parseJson h, List.getLast?_concat]
  · intro prev
    rw [extractPDF_split pages outcomes parseJson h, finalFile,
      List.foldl_append]
    rfl

/-- Witness for `c5_single_write_amended` on a one-page document. -/
theorem c5_single_write_witness :
    ∃ content,
      (extractPDF [longPage] c4Outcomes c4Parse).filter Event.isWrite =
        [Event.fileWrite content] ∧
      (extractPDF [longPage] c4Outcomes c4Parse).getLast? =
        some (Event.fileWrite content) ∧
      ∀ prev, finalFile prev (extractPDF [longPage] c4Outcomes c4Parse) =
        some content :=
  c5_single_write_amended [longPage] c4Outcomes c4Parse (by decide)

/-! ## Claim C6: silent empty results of `search_arxiv` -/

/-- C6.  `search_arxiv` returns an empty list on empty keyword input, on
HTTP request failure, and on XML parse failure; the three cases all
yield the same `.ok []`, so the caller cannot distinguish them, and in
the empty-keyword case no network call is made (second component
`false`). -/
theorem c6_empty_on_errors (keywords : List String)
    (fetch : Unit → FetchResult) :
    (keywords = [] → search_arxiv keywords fetch = (.ok [], false)) ∧
    (keywords ≠ [] → fetch () = .httpError →
      search_arxiv keywords fetch = (.ok [], true)) ∧
    (keywords ≠ [] → fetch () = .response .parseError →
      search_arxiv keywords fetch = (.ok [], true)) := by
  refine ⟨?_, ?_, ?_⟩
  · intro hk
    subst hk
    rfl
  · intro hk hf
    rw [search_arxiv]
    have : keywords.isEmpty = false := by
      cases keywords with
      | nil => exact absurd rfl hk
      | cons a b => rfl
    rw [this, hf]
    rfl
  · intro hk hf
    rw [search_arxiv]
    have : keywords.isEmpty = false := by
      cases keywords with
      | nil => exact absurd rfl hk
      | cons a b => rfl
    rw [this, hf]
    rfl

/-- A network oracle raising a `RequestException`. -/
def httpErrFetch : Unit → FetchResult := fun _ => .httpError

/-- A network oracle answering with a malformed XML body. -/
def parseErrFetch : Unit → FetchResult := fun _ => .response .parseError

/-- Witness for `c6_empty_on_errors` at concrete keyword lists and
network oracles. -/
theorem c6_empty_on_errors_witness :
    search_arxiv [] httpErrFetch = (.ok [], false) ∧
    search_arxiv ["llm"] httpErrFetch = (.ok [], true) ∧
    search_arxiv ["llm"] parseErrFetch = (.ok [], true) :=
  ⟨(c6_empty_on_errors [] httpErrFetch).1 rfl,
   (c6_empty_on_errors ["llm"] httpErrFetch).2.1 (by decide) rfl,
   (c6_empty_on_errors ["llm"] parseErrFetch).2.2 (by decide) rfl⟩

/-! ## Claims C7 and C9: feed entries and paper records -/

theorem isEmpty_false_ne (s : String) (h : s.isEmpty = false) : s ≠ "" := by
  intro hs
  subst hs
  exact absurd h (by decide)

theorem extractAuthors_ok_eq :
    ∀ (l : List AuthorElem) (names : List String),
      extractAuthors l = .ok names →
      names = (l.filterMap (fun a => a.name.bind XmlElem.text)).filter
        (fun s => !s.isEmpty) := by
  intro l
  induction l with
  | nil =>
    intro names h
    simp [extractAuthors] at h
    subst h
    rfl
  | cons a rest ih =>
    intro names h
    rw [extractAuthors] at h
    cases hn : a.name with
    | none => rw [hn] at h; exact absurd h (by simp)
    | some el =>
      rw [hn] at h
      cases hr : extractAuthors rest with
      | error u => rw [hr] at h; exact absurd h (by simp)
      | ok names2 =>
        rw [hr] at h
        simp only [Except.ok.injEq] at h
        subst h
        rw [List.filterMap_cons]
        cases htext : el.text with
        | none =>
          simp [hn, htext, ih names2 hr]
        | some s =>
          by_cases hs : s.isEmpty
          · simp [hn, htext, hs, List.filter, ih names2 hr]
          · simp only [Bool.not_eq_true] at hs
            simp [hn, htext, hs, List.filter, ih names2 hr]

theorem processEntry_ok_fields (e : AtomEntry) (p : Paper)
    (h : processEntry e = .ok p) :
    (e.title = none → p.title = "N/A") ∧
    (e.summary = none → p.summary = "N/A") ∧
    (e.idElem = none → p.arxiv_id = some "N/A") ∧
    (e.primaryCategory = none → p.primary_category = some "N/A") ∧
    p.authors = (entryAuthorTexts e).filter (fun s => !s.isEmpty) ∧
    (∀ s ∈ p.authors, s ≠ "") := by
  rw [processEntry] at h
  cases h1 : textStripped e.title with
  | error u => rw [h1] at h; exact absurd h (by simp)
  | ok title =>
    rw [h1] at h
    cases h2 : textStripped e.summary with
    | error u => rw [h2] at h; exact absurd h (by simp)
    | ok summary =>
      rw [h2] at h
      cases h3 : extractAuthors e.authors with
      | error u => rw [h3] at h; exact absurd h (by simp)
      | ok authors =>
        rw [h3] at h
        simp only [Except.ok.injEq] at h
        subst h
        have hauth : authors =
            (entryAuthorTexts e).filter (fun s => !s.isEmpty) := by
          rw [entryAuthorTexts]
          exact extractAuthors_ok_eq _ _ h3
        refine ⟨?_, ?_, ?_, ?_, hauth, ?_⟩
        · intro ht
          rw [ht] at h1
          simp [textStripped] at h1
          exact h1.symm
        · intro hs
          rw [hs] at h2
          simp [textStripped] at h2
          exact h2.symm
        · intro hi
          simp [hi]
        · intro hc
          simp [hc]
        · intro s hs
          rw [hauth] at hs
          have hmem := (List.mem_filter.mp hs).2
          simp only [Bool.not_eq_true'] at hmem
          exact isEmpty_false_ne s hmem

theorem extractAuthors_isOk :
    ∀ l : List AuthorElem, (∀ a ∈ l, a.name.isSome = true) →
      ∃ names, extractAuthors l = .ok names := by
  intro l
  induction l with
  | nil => intro h; exact ⟨[], rfl⟩
  | cons a rest ih =>
    intro h
    obtain ⟨el, hel⟩ := Option.isSome_iff_exists.mp (h a (by simp))
    obtain ⟨names, hns⟩ := ih (fun x hx => h x (by simp [hx]))
    simp only [extractAuthors, hel, hns]
    exact ⟨_, rfl⟩

theorem processEntry_wf (e : AtomEntry) (h : entryWellFormed e = true) :
    ∃ p, processEntry e = .ok p := by
  rw [entryWellFormed] at h
  simp only [Bool.and_eq_true] at h
  obtain ⟨⟨ht, hs⟩, ha⟩ := h
  have h1 : ∃ title, textStripped e.title = .ok title := by
    cases het : e.title with
    | none => exact ⟨"N/A", rfl⟩
    | some el =>
      rw [het] at ht
      simp only at ht
      obtain ⟨t, htt⟩ := Option.isSome_iff_exists.mp ht
      exact ⟨pyStrip t, by simp [textStripped, htt]⟩
  have h2 : ∃ summary, textStripped e.summary = .ok summary := by
    cases hes : e.summary with
    | none => exact ⟨"N/A", rfl⟩
    | some el =>
      rw [hes] at hs
      simp only at hs
      obtain ⟨t, htt⟩ := Option.isSome_iff_exists.mp hs
      exact ⟨pyStrip t, by simp [textStripped, htt]⟩
  rw [List.all_eq_true] at ha
  obtain ⟨names, h3⟩ := extractAuthors_isOk e.authors
    (fun a haa => by simpa using ha a haa)
  obtain ⟨title, ht1⟩ := h1
  obtain ⟨summary, hs2⟩ := h2
  refine ⟨⟨title, names, summary,
    (match e.idElem with
     | none => some "N/A"
     | some el => el.text),
    (match e.primaryCategory with
     | none => some "N/A"
     | some el => el.term)⟩, ?_⟩
  rw [processEntry, ht1, hs2, h3]

theorem entriesToPapers_wf :
    ∀ entries : List AtomEntry, (∀ e ∈ entries, entryWellFormed e = true) →
      ∃ papers, entriesToPapers entries = .ok papers ∧
        papers.length = entries.length ∧
        ∀ (i : Nat) (e : AtomEntry), entries[i]? = some e →
          ∃ p, papers[i]? = some p ∧ processEntry e = .ok p := by
  intro entries
  induction entries with
  | nil =>
    intro h
    refine ⟨[], rfl, rfl, ?_⟩
    intro i e he
    simp at he
  | cons e rest ih =>
    intro h
    obtain ⟨p, hp⟩ := processEntry_wf e (h e (by simp))
    obtain ⟨papers, hps, hlen, hidx⟩ := ih (fun x hx => h x (by simp [hx]))
    refine ⟨p :: papers, ?_, by simp [hlen], ?_⟩
    · rw [entriesToPapers, hp, hps]
    · intro i e2 he2
      cases i with
      | zero =>
        simp at he2
        subst he2
        exact ⟨p, by simp, hp⟩
      | succ i2 =>
        simp at he2
        obtain ⟨p2, hp2, hpe⟩ := hidx i2 e2 he2
        exact ⟨p2, by simpa using hp2, hpe⟩

/-- C7.  For every well-formed Atom feed response containing `N` entry
elements, `search_arxiv` returns exactly `N` paper records, in document
order (the record at index `i` is produced from the entry at index `i`),
and within each record the authors list preserves the document order of
the entry's author elements (it equals the in-order author-name texts
with the empty ones dropped). -/
theorem c7_feed_order (keywords : List String) (fetch : Unit → FetchResult)
    (entries : List AtomEntry)
    (hk : keywords ≠ [])
    (hfetch : fetch () = .response (.feed entries))
    (hwf : ∀ e ∈ entries, entryWellFormed e = true) :
    ∃ papers, search_arxiv keywords fetch = (.ok papers, true) ∧
      papers.length = entries.length ∧
      ∀ (i : Nat) (e : AtomEntry), entries[i]? = some e →
        ∃ p, papers[i]? = some p ∧ processEntry e = .ok p ∧
          p.authors = (entryAuthorTexts e).filter (fun s => !s.isEmpty) := by
  obtain ⟨papers, hps, hlen, hidx⟩ := entriesToPapers_wf entries hwf
  have hne : keywords.isEmpty = false := by
    cases keywords with
    | nil => exact absurd rfl hk
    | cons a b => rfl
  refine ⟨papers, ?_, hlen, ?_⟩
  · simp [search_arxiv, hne, hfetch, hps]
  · intro i e he
    obtain ⟨p, hp, hpe⟩ := hidx i e he
    exact ⟨p, hp, hpe, (processEntry_ok_fields e p hpe).2.2.2.2.1⟩

/-- A well-formed entry with every element present. -/
def fullEntry : AtomEntry :=
  ⟨some ⟨some " A Title "⟩, some ⟨some "A summary."⟩,
   [⟨some ⟨some "Alice"⟩⟩, ⟨some ⟨some ""⟩⟩, ⟨some ⟨none⟩⟩],
   some ⟨some "http://arxiv.org/abs/1234.5678v1"⟩, some ⟨some "cs.AI"⟩⟩

/-- A well-formed entry with every element absent and no authors. -/
def bareEntry : AtomEntry := ⟨none, none, [], none, none⟩

/-- A network oracle answering with a two-entry feed. -/
def feedFetch : Unit → FetchResult :=
  fun _ => .response (.feed [fullEntry, bareEntry])

/-- Witness for `c7_feed_order` on a concrete two-entry feed. -/
theorem c7_feed_order_witness :
    ∃ papers, search_arxiv ["llm"] feedFetch = (.ok papers, true) ∧
      papers.length = [fullEntry, bareEntry].length ∧
      ∀ (i : Nat) (e : AtomEntry), [fullEntry, bareEntry][i]? = some e →
        ∃ p, papers[i]? = some p ∧ processEntry e = .ok p ∧
          p.authors = (entryAuthorTexts e).filter (fun s => !s.isEmpty) :=
  c7_feed_order ["llm"] feedFetch [fullEntry, bareEntry]
    (by decide) rfl (by decide)

theorem entriesToPapers_mem :
    ∀ (entries : List AtomEntry) (papers : List Paper),
      entriesToPapers entries = .ok papers →
      ∀ p ∈ papers, ∃ e ∈ entries, processEntry e = .ok p := by
  intro entries
  induction entries with
  | nil =>
    intro papers h p hp
    simp [entriesToPapers] at h
    subst h
    simp at hp
  | cons e rest ih =>
    intro papers h p hp
    rw [entriesToPapers] at h
    cases h1 : processEntry e with
    | error u => rw [h1] at h; exact absurd h (by simp)
    | ok p1 =>
      rw [h1] at h
      cases h2 : entriesToPapers rest with
      | error u => rw [h2] at h; exact absurd h (by simp)
      | ok ps =>
        rw [h2] at h
        simp only [Except.ok.injEq] at h
        subst h
        rcases List.mem_cons.mp hp with hp1 | hp2
        · subst hp1
          exact ⟨e, by simp, h1⟩
        · obtain ⟨e2, he2, hpe2⟩ := ih ps h2 p hp2
          exact ⟨e2, by simp [he2], hpe2⟩

/-- C9.  Every paper record returned by `search_arxiv` comes from a feed
entry via `processEntry` (the record's fields are exactly the five of
the `Paper` structure); when the entry lacks a title, summary, id or
primary-category element the corresponding field is the string `N/A`
rather than an error, and `authors` is the (possibly empty) in-order
list of the entry's non-empty author names. -/
theorem c9_record_fields (keywords : List String) (fetch : Unit → FetchResult)
    (entries : List AtomEntry) (papers : List Paper)
    (hk : keywords ≠ [])
    (hfetch : fetch () = .response (.feed entries))
    (hres : (search_arxiv keywords fetch).1 = .ok papers) :
    ∀ p ∈ papers, ∃ e ∈ entries, processEntry e = .ok p ∧
      (e.title = none → p.title = "N/A") ∧
      (e.summary = none → p.summary = "N/A") ∧
      (e.idElem = none → p.arxiv_id = some "N/A") ∧
      (e.primaryCategory = none → p.primary_category = some "N/A") ∧
      p.authors = (entryAuthorTexts e).filter (fun s => !s.isEmpty) ∧
      ∀ s ∈ p.authors, s ≠ "" := by
  have hne : keywords.isEmpty = false := by
    cases keywords with
    | nil => exact absurd rfl hk
    | cons a b => rfl
  simp only [search_arxiv, hne, Bool.false_eq_true, if_false, hfetch] at hres
  intro p hp
  obtain ⟨e, he, hpe⟩ := entriesToPapers_mem entries papers hres p hp
  have hf := processEntry_ok_fields e p hpe
  exact ⟨e, he, hpe, hf.1, hf.2.1, hf.2.2.1, hf.2.2.2.1, hf.2.2.2.2.1,
    hf.2.2.2.2.2⟩

/-- The paper record produced from `fullEntry`. -/
def fullPaper : Paper :=
  ⟨"A Title", ["Alice"], "A summary.",
    some "http://arxiv.org/abs/1234.5678v1", some "cs.AI"⟩

/-- The paper record produced from `bareEntry`: every absent element
defaults to the string `N/A`. -/
def barePaper : Paper := ⟨"N/A", [], "N/A", some "N/A", some "N/A"⟩

/-- Witness for `c9_record_fields` on the concrete two-entry feed, at
the record produced from the element-free entry. -/
theorem c9_record_fields_witness :
    ∃ e ∈ [fullEntry, bareEntry], processEntry e = .ok barePaper ∧
      (e.title = none → barePaper.title = "N/A") ∧
      (e.summary = none → barePaper.summary = "N/A") ∧
      (e.idElem = none → barePaper.arxiv_id = some "N/A") ∧
      (e.primaryCategory = none → barePaper.primary_category = some "N/A") ∧
      barePaper.authors = (entryAuthorTexts e).filter (fun s => !s.isEmpty) ∧
      ∀ s ∈ barePaper.authors, s ≠ "" :=
  c9_record_fields ["llm"] feedFetch [fullEntry, bareEntry]
    [fullPaper, barePaper] (by decide) rfl rfl barePaper (by decide)

/-! ## Claim C8: `download_pdfs` -/

/-- C8 (amended, proved below as `c8_download_amended`).  For every list
of papers whose identifiers are strings and every network that raises no
transport exception, `download_pdfs` issues one sequential GET per
paper, using the trailing path segment of the identifier as the
filename stem; on HTTP 200 it writes the response bytes to
`downloaded_pdfs/<stem>.pdf` and reports success, and on a non-200
status it reports a failure for that paper only and continues with the
remaining papers.  A transport exception, however, is not caught (there
is no `try` around `requests.get`) and aborts the loop, skipping the
remaining papers — see `c8_download_counterexample`. -/
theorem c8_download_amended :
    ∀ (papers : List Paper) (http : String → HttpGetResult),
      (∀ p ∈ papers, p.arxiv_id.isSome = true) →
      (∀ u, http u ≠ .exn) →
      (download_pdfs papers http).2 = true ∧
      ((download_pdfs papers http).1.filter DlEvent.isGet).length =
        papers.length ∧
      ∀ p ∈ papers, ∀ idStr, p.arxiv_id = some idStr →
        DlEvent.get (pdfUrl (stemOf idStr)) ∈ (download_pdfs papers http).1 ∧
        (∀ body, http (pdfUrl (stemOf idStr)) = .resp 200 body →
          DlEvent.write ("downloaded_pdfs/" ++ stemOf idStr ++ ".pdf") body ∈
            (download_pdfs papers http).1 ∧
          DlEvent.success (stemOf idStr ++ ".pdf") ∈
            (download_pdfs papers http).1) ∧
        (∀ st body, http (pdfUrl (stemOf idStr)) = .resp st body → st ≠ 200 →
          DlEvent.errorMsg (stemOf idStr ++ ".pdf") ∈
            (download_pdfs papers http).1) := by
  intro papers
  induction papers with
  | nil =>
    intro http hid hhttp
    refine ⟨rfl, rfl, ?_⟩
    intro p hp
    simp at hp
  | cons q rest ih =>
    intro http hid hhttp
    obtain ⟨qid, hqid⟩ := Option.isSome_iff_exists.mp (hid q (by simp))
    obtain ⟨ih1, ih2, ih3⟩ := ih http (fun x hx => hid x (by simp [hx])) hhttp
    cases hresp : http (pdfUrl (stemOf qid)) with
    | exn => exact absurd hresp (hhttp _)
    | resp st body =>
      have hunf : download_pdfs (q :: rest) http =
          ((if st = 200 then
              [DlEvent.get (pdfUrl (stemOf qid)),
               DlEvent.write ("downloaded_pdfs/" ++ stemOf qid ++ ".pdf") body,
               DlEvent.success (stemOf qid ++ ".pdf")]
            else
              [DlEvent.get (pdfUrl (stemOf qid)),
               DlEvent.errorMsg (stemOf qid ++ ".pdf")]) ++
            (download_pdfs rest http).1,
           (download_pdfs rest http).2) := by
        simp only [download_pdfs, hqid, hresp]
      refine ⟨by rw [hunf]; exact ih1, ?_, ?_⟩
      · rw [hunf]
        by_cases hst : st = 200
        · simp only [hst, if_pos rfl]
          simp [DlEvent.isGet, List.filter, ih2]
        · rw [if_neg hst]
          simp [DlEvent.isGet, List.filter, ih2]
      · intro p hp idStr hpid
        rcases List.mem_cons.mp hp with hp1 | hp2
        · subst hp1
          have hqq : idStr = qid := Option.some.inj (hpid.symm.trans hqid)
          subst hqq
          refine ⟨?_, ?_, ?_⟩
          · rw [hunf]
            by_cases hst : st = 200
            · simp [hst]
            · simp [if_neg hst]
          · intro body2 hb
            rw [hresp] at hb
            injection hb with hst hbody
            subst hst
            subst hbody
            constructor
            · rw [hunf]
              simp
            · rw [hunf]
              simp
          · intro st2 body2 hb hne
            rw [hresp] at hb
            injection hb with hst hbody
            subst hst
            rw [hunf, if_neg hne]
            simp
        · obtain ⟨ihg, ihw, ihe⟩ := ih3 p hp2 idStr hpid
          refine ⟨?_, ?_, ?_⟩
          · rw [hunf]
            exact List.mem_append_right _ ihg
          · intro body2 hb
            obtain ⟨hw, hsu⟩ := ihw body2 hb
            constructor
            · rw [hunf]
              exact List.mem_append_right _ hw
            · rw [hunf]
              exact List.mem_append_right _ hsu
          · intro st2 body2 hb hne
            rw [hunf]
            exact List.mem_append_right _ (ihe st2 body2 hb hne)

/-- A paper record as produced by `search_arxiv`. -/
def c8Paper1 : Paper :=
  ⟨"T1", [], "S1", some "http://arxiv.org/abs/1234.5678v1", some "cs.AI"⟩

/-- A second paper record. -/
def c8Paper2 : Paper :=
  ⟨"T2", [], "S2", some "http://arxiv.org/abs/9999.0001v1", some "cs.AI"⟩

/-- A network oracle whose every GET raises a transport exception. -/
def c8HttpExn : String → HttpGetResult := fun _ => .exn

/-- C8 (counterexample).  With two papers and a network that raises a
transport exception on the first GET, `download_pdfs` stops after that
single GET: no failure is reported for the first paper, the second
paper is never fetched (only 1 GET instead of one per paper), and the
loop does not run to completion — contradicting the claim that on a
transport error it reports a failure for that paper only and continues
with the remaining papers. -/
theorem c8_download_counterexample :
    (download_pdfs [c8Paper1, c8Paper2] c8HttpExn).1 =
      [DlEvent.get "http://arxiv.org/pdf/1234.5678v1.pdf"] ∧
    (download_pdfs [c8Paper1, c8Paper2] c8HttpExn).2 = false ∧
    ((download_pdfs [c8Paper1, c8Paper2] c8HttpExn).1.filter
        DlEvent.isGet).length ≠ 2 := by
  decide

/-- A network oracle that answers 200 for the first paper's URL and 404
for everything else. -/
def c8GoodHttp : String → HttpGetResult :=
  fun u =>
    if u = "http://arxiv.org/pdf/1234.5678v1.pdf" then .resp 200 "PDFBYTES"
    else .resp 404 "notfound"

theorem c8GoodHttp_ne_exn : ∀ u, c8GoodHttp u ≠ .exn := by
  intro u h
  rw [c8GoodHttp] at h
  split at h <;> exact HttpGetResult.noConfusion h

/-- Witness for `c8_download_amended` on two concrete papers, one
downloading with status 200 and one failing with status 404. -/
theorem c8_download_witness :
    (download_pdfs [c8Paper1, c8Paper2] c8GoodHttp).2 = true ∧
    ((download_pdfs [c8Paper1, c8Paper2] c8GoodHttp).1.filter
        DlEvent.isGet).length = [c8Paper1, c8Paper2].length ∧
    ∀ p ∈ [c8Paper1, c8Paper2], ∀ idStr, p.arxiv_id = some idStr →
      DlEvent.get (pdfUrl (stemOf idStr)) ∈
        (download_pdfs [c8Paper1, c8Paper2] c8GoodHttp).1 ∧
      (∀ body, c8GoodHttp (pdfUrl (stemOf idStr)) = .resp 200 body →
        DlEvent.write ("downloaded_pdfs/" ++ stemOf idStr ++ ".pdf") body ∈
          (download_pdfs [c8Paper1, c8Paper2] c8GoodHttp).1 ∧
        DlEvent.success (stemOf idStr ++ ".pdf") ∈
          (download_pdfs [c8Paper1, c8Paper2] c8GoodHttp).1) ∧
      (∀ st body, c8GoodHttp (pdfUrl (stemOf idStr)) = .resp st body →
        st ≠ 200 →
        DlEvent.errorMsg (stemOf idStr ++ ".pdf") ∈
          (download_pdfs [c8Paper1, c8Paper2] c8GoodHttp).1) :=
  c8_download_amended [c8Paper1, c8Paper2] c8GoodHttp (by decide)
    c8GoodHttp_ne_exn

end Heuristic
